import Mathlib

/-!
Verification of the audio relay server (src/server.py) and the segment
aggregator (src/translate.py) against their specification.

The embedding models:
- the per-connection bounded outbound queue with its drop-oldest enqueue
  discipline and the sender-loop dequeue (server.py, `ClientConnection`,
  `client_sender`, and the broadcast loop of `websocket_endpoint`);
- the connection registry (the Python `set` named `connected_clients`);
- the liveness check of the sender loop (idle timeout on `last_activity`,
  which is written both by a successful send and by an inbound receive);
- the `AudioCollector` of translate.py with its adaptive byte-rate
  estimate, target-size computation and segment slicing;
- the save-file naming scheme of `AudioCollector._save_audio_file`.

Machine reals (Python floats) are modelled as rationals; byte strings as
lists of naturals; wall-clock instants as rational seconds.
-/

namespace AudioCall

/-- One inbound binary audio payload, modelled as its list of bytes. -/
abbrev Chunk := List Nat

/-- Queue capacity: `asyncio.Queue(maxsize=3)` in `ClientConnection.__init__`
(server.py line 39). -/
def queueMaxsize : Nat := 3

/-- The broadcast-side enqueue of server.py lines 145-161, acting on one
target queue (front of the list is the next element `get` returns, `put`
appends at the back).  Returns the new queue together with a flag that is
`true` exactly when the final `except asyncio.QueueFull` branch ran, i.e.
when the chunk was silently discarded.

Steps, mirroring the code:
1. if `qsize() >= maxsize - 1`, drain the queue with `get_nowait` until
   empty (lines 147-153);
2. `put_nowait(data)`: append if the queue is below `maxsize`, otherwise
   discard the chunk (lines 156-161). -/
def enqueueFull (data : Chunk) (q : List Chunk) : List Chunk × Bool :=
  let q1 := if queueMaxsize - 1 ≤ q.length then [] else q
  if q1.length < queueMaxsize then (q1 ++ [data], false) else (q1, true)

/-- The queue produced by the broadcast-side enqueue (discard flag ignored). -/
def enqueue (data : Chunk) (q : List Chunk) : List Chunk :=
  (enqueueFull data q).1

/-- The sender-loop dequeue: `await client.data_queue.get()` removes the
front element (server.py line 90). -/
def dequeue (q : List Chunk) : List Chunk :=
  q.drop 1

/-- One operation on a connection's outbound queue: a broadcast enqueue or a
sender-loop dequeue. -/
inductive QOp where
  | enq (data : Chunk)
  | deq
deriving DecidableEq

/-- Apply one queue operation. -/
def applyQOp (q : List Chunk) : QOp → List Chunk
  | QOp.enq data => enqueue data q
  | QOp.deq => dequeue q

/-- Apply a sequence of queue operations, oldest first. -/
def runQOps (q : List Chunk) (ops : List QOp) : List Chunk :=
  ops.foldl applyQOp q

/-- A registered client connection: its identity and its outbound queue
(`ClientConnection` of server.py, restricted to the fields the broadcast
path touches). -/
structure Client where
  id : Nat
  queue : List Chunk
deriving DecidableEq

/-- Enqueue a chunk into one client's outbound queue. -/
def enqueueClient (data : Chunk) (c : Client) : Client :=
  { c with queue := enqueue data c.queue }

/-- The broadcast fan-out of server.py lines 143-161: for every connected
client other than the source, enqueue the chunk into its queue; the source
itself is skipped by the `if other_client != client` guard (line 144). -/
def fanout (src : Nat) (data : Chunk) (clients : List Client) : List Client :=
  clients.map (fun c => if c.id = src then c else enqueueClient data c)

/-- An update of a connection's `last_activity` field: either an inbound
receive (`client.last_activity = time.time()` after `receive_bytes`,
server.py line 128) or a successful outbound send (server.py line 96),
tagged with the wall-clock instant at which it happened. -/
inductive Ev where
  | recv (t : ℚ)
  | send (t : ℚ)
deriving DecidableEq

/-- Wall-clock instant of an activity event. -/
def Ev.time : Ev → ℚ
  | Ev.recv t => t
  | Ev.send t => t

/-- Whether an activity event is a successful outbound send. -/
def Ev.isSend : Ev → Bool
  | Ev.recv _ => false
  | Ev.send _ => true

/-- The idle limit of the sender loop: 5 seconds (server.py line 103). -/
def idleLimit : ℚ := 5

/-- The value of `last_activity` after a sequence of activity events, given
its initial value (set to the accept time in `ClientConnection.__init__`,
server.py line 37).  Each event overwrites the field with its own time, so
the last event wins. -/
def lastActivity (init : ℚ) : List Ev → ℚ
  | [] => init
  | e :: rest => lastActivity e.time rest

/-- Wall-clock monotonicity of an event trace: each event happens no earlier
than the one before it (real time never runs backwards). -/
def timesMono : List Ev → Bool
  | [] => true
  | [_] => true
  | a :: b :: rest => decide (a.time ≤ b.time) && timesMono (b :: rest)

/-- The timeout test of the sender loop's `asyncio.TimeoutError` branch:
`time.time() - client.last_activity > 5` (server.py line 103). -/
def timesOutAt (la t : ℚ) : Bool :=
  decide (idleLimit < t - la)

/-- The effect of one sender-loop poll at time `t` on the registry: if the
timeout test fires, the loop breaks and its `finally` block removes the
client from `connected_clients` (server.py lines 105, 110-111); otherwise
the registry is untouched. -/
def senderTimeoutStep (reg : List Nat) (cid : Nat) (la t : ℚ) : List Nat :=
  if timesOutAt la t then reg.filter (fun x => x ≠ cid) else reg

/-- Registration fault named by the spec for duplicate registration. -/
inductive RegFault where
  | duplicateConnection
deriving DecidableEq

/-- Registration as the code performs it: `connected_clients.add(client)`
(server.py line 117) — Python set insertion, a silent no-op when the
element is already present, never an error. -/
def registerConn (reg : List Nat) (cid : Nat) : List Nat :=
  if cid ∈ reg then reg else cid :: reg

/-- Registration as the specification words it (refinement target for the
duplicate-registration claim): adds the connection, fails with
`DuplicateConnection` if it is already present. -/
def registerSpec (reg : List Nat) (cid : Nat) : Except RegFault (List Nat) :=
  if cid ∈ reg then Except.error RegFault.duplicateConnection
  else Except.ok (cid :: reg)

/-- Python `int()` on a rational: truncation toward zero. -/
def pyInt (q : ℚ) : Int :=
  if 0 ≤ q then ⌊q⌋ else -⌊-q⌋

/-- Python slice `l[:t]` with a possibly negative index. -/
def pyTake (t : Int) (l : List Nat) : List Nat :=
  if 0 ≤ t then l.take t.toNat else l.take (l.length - (-t).toNat)

/-- Python slice `l[t:]` with a possibly negative index. -/
def pyDrop (t : Int) (l : List Nat) : List Nat :=
  if 0 ≤ t then l.drop t.toNat else l.drop (l.length - (-t).toNat)

/-- State of translate.py's `AudioCollector`: configured duration, byte
buffer, time of the last save, and the smoothed byte-rate estimate. -/
structure AudioCollector where
  duration_seconds : ℚ
  buffer : List Nat
  last_save_time : ℚ
  bytes_per_second : ℚ
deriving DecidableEq

/-- A fresh collector (`AudioCollector.__init__`, translate.py lines 20-26):
empty buffer, last save time set to now, initial rate estimate 24000. -/
def initCollector (duration : ℚ) (now : ℚ) : AudioCollector :=
  { duration_seconds := duration, buffer := [], last_save_time := now,
    bytes_per_second := 24000 }

/-- The adaptive rate update of `add_chunk` (translate.py lines 32-36):
if more than 0.1 s elapsed since the last save, blend the instantaneous
rate `len(buffer) / elapsed` into the estimate with weights 0.8 / 0.2;
otherwise keep the previous estimate. -/
def smoothedRate (c : AudioCollector) (now : ℚ) (buf : List Nat) : ℚ :=
  let elapsed := now - c.last_save_time
  if 1/10 < elapsed then
    c.bytes_per_second * (8/10) + ((buf.length : ℚ) / elapsed) * (2/10)
  else c.bytes_per_second

/-- The segment target size of `add_chunk`:
`int(self.duration_seconds * self.bytes_per_second)` (translate.py
line 39). -/
def targetSize (duration rate : ℚ) : Int :=
  pyInt (duration * rate)

/-- The segment target size as the specification words it (refinement
target): `round(durationSeconds * smoothedRate)`. -/
def targetSizeSpec (duration rate : ℚ) : Int :=
  round (duration * rate)

/-- One `add_chunk` call (translate.py lines 28-45) at wall-clock `now`:
append the bytes (`self.buffer.extend`), update the rate estimate, and if
the grown buffer has reached the target size
(`len(self.buffer) >= target_size`), emit the first `target_size` bytes as
a completed segment, retain the remainder, and refresh `last_save_time`.
Returns the new state and the emitted segment, if any. -/
def add_chunk (now : ℚ) (audio_data : List Nat) (c : AudioCollector) :
    AudioCollector × Option (List Nat) :=
  if targetSize c.duration_seconds (smoothedRate c now (c.buffer ++ audio_data))
      ≤ ((c.buffer ++ audio_data).length : Int) then
    ({ c with
        buffer := pyDrop
          (targetSize c.duration_seconds
            (smoothedRate c now (c.buffer ++ audio_data)))
          (c.buffer ++ audio_data)
        last_save_time := now
        bytes_per_second := smoothedRate c now (c.buffer ++ audio_data) },
      some (pyTake
        (targetSize c.duration_seconds
          (smoothedRate c now (c.buffer ++ audio_data)))
        (c.buffer ++ audio_data)))
  else
    ({ c with
        buffer := c.buffer ++ audio_data
        bytes_per_second := smoothedRate c now (c.buffer ++ audio_data) },
      none)

/-- Run a sequence of `add_chunk` calls (each paired with its wall-clock
instant), collecting all emitted segments in order. -/
def runCollector (c : AudioCollector) :
    List (ℚ × List Nat) → AudioCollector × List (List Nat)
  | [] => (c, [])
  | (now, d) :: rest =>
      ((runCollector (add_chunk now d c).1 rest).1,
        (add_chunk now d c).2.toList ++ (runCollector (add_chunk now d c).1 rest).2)

/-- The identifying content of a file name produced by
`AudioCollector._save_audio_file` (translate.py lines 49-50): the
configured duration and the `strftime("%Y%m%d_%H%M%S")` timestamp, which
is determined by the wall-clock second of the save. -/
structure SaveName where
  duration : ℚ
  stamp : Int
deriving DecidableEq

/-- The name assigned to a segment saved at wall-clock instant `now`
(rational seconds): the second-resolution format string keeps only the
whole-second part of the clock. -/
def saveName (duration : ℚ) (now : ℚ) : SaveName :=
  { duration := duration, stamp := ⌊now⌋ }

end AudioCall

namespace AudioCall

theorem fanout_length (src : Nat) (data : Chunk) (clients : List Client) :
    (fanout src data clients).length = clients.length := by
  simp [fanout]

/-- Helper: the drop-oldest enqueue never grows a queue beyond the capacity
bound (after a clear the queue holds one element; without a clear it held
at most one element and gains one). -/
theorem enqueue_length_le (data : Chunk) (q : List Chunk) :
    (enqueue data q).length ≤ queueMaxsize := by
  unfold enqueue enqueueFull queueMaxsize
  by_cases h : 3 - 1 ≤ q.length
  · simp [h]
  · simp only [h, if_false, if_neg]
    push_neg at h
    by_cases h2 : q.length < 3
    · simp [h2]; omega
    · omega

/-- Helper: the capacity bound is preserved by every single queue
operation. -/
theorem applyQOp_length_le (q : List Chunk) (op : QOp)
    (h : q.length ≤ queueMaxsize) : (applyQOp q op).length ≤ queueMaxsize := by
  cases op with
  | enq data => exact enqueue_length_le data q
  | deq =>
      simp only [applyQOp, dequeue]
      calc (q.drop 1).length ≤ q.length := by simp [List.length_drop]
        _ ≤ queueMaxsize := h

theorem runQOps_length_le (q : List Chunk) (ops : List QOp)
    (h : q.length ≤ queueMaxsize) : (runQOps q ops).length ≤ queueMaxsize := by
  induction ops generalizing q with
  | nil => simpa [runQOps] using h
  | cons op rest ih =>
      simpa [runQOps, List.foldl_cons] using
        ih (applyQOp q op) (applyQOp_length_le q op h)

end AudioCall

/-- C1: the broadcast fan-out never enqueues a chunk into the source's own
outbound queue — the source's registry entry is left unchanged — while every
client with a different identity receives the chunk via the drop-oldest
enqueue. -/
theorem c1_no_self_delivery (clients : List AudioCall.Client) (src : Nat)
    (data : AudioCall.Chunk) (i : Nat) (c : AudioCall.Client)
    (hc : clients[i]? = some c) :
    (c.id = src → (AudioCall.fanout src data clients)[i]? = some c) ∧
    (c.id ≠ src → (AudioCall.fanout src data clients)[i]? =
        some (AudioCall.enqueueClient data c)) := by
  constructor
  · intro hid
    simp [AudioCall.fanout, List.getElem?_map, hc, hid]
  · intro hid
    simp [AudioCall.fanout, List.getElem?_map, hc, hid]

/-- Witness for C1 at a concrete registry: two clients with ids 0 and 1,
chunk broadcast by client 0; client 0's own queue stays untouched. -/
theorem c1_no_self_delivery_witness :
    ([⟨0, []⟩, ⟨1, []⟩] : List AudioCall.Client)[0]? = some ⟨0, []⟩ ∧
    (AudioCall.fanout 0 [7] [⟨0, []⟩, ⟨1, []⟩])[0]? = some ⟨0, []⟩ :=
  ⟨rfl, (c1_no_self_delivery [⟨0, []⟩, ⟨1, []⟩] 0 [7] 0 ⟨0, []⟩ rfl).1 rfl⟩

/-- C2: drop-oldest-on-pressure — whenever the target queue is at or within
one slot of capacity (length at least `maxsize - 1 = 2`), the enqueue clears
everything already queued and the resulting queue holds exactly the new
chunk; in particular this covers a queue already holding 3 items. -/
theorem c2_drop_oldest (data : AudioCall.Chunk) (q : List AudioCall.Chunk)
    (h : AudioCall.queueMaxsize - 1 ≤ q.length) :
    AudioCall.enqueue data q = [data] := by
  have h2 : 2 ≤ q.length := h
  unfold AudioCall.enqueue AudioCall.enqueueFull
  simp [AudioCall.queueMaxsize, h2]

/-- Witness for C2: a queue holding three chunks (full capacity) ends up
holding exactly the newly enqueued chunk. -/
theorem c2_drop_oldest_witness :
    AudioCall.queueMaxsize - 1 ≤ ([[1], [2], [3]] : List AudioCall.Chunk).length ∧
    AudioCall.enqueue [9] [[1], [2], [3]] = [[9]] :=
  ⟨by decide, c2_drop_oldest [9] [[1], [2], [3]] (by decide)⟩

/-- C3: starting from the empty queue a connection is created with, no
interleaving of broadcast enqueues and sender-loop dequeues ever leaves the
outbound queue holding more than `maxsize = 3` items. -/
theorem c3_queue_bounded (ops : List AudioCall.QOp) :
    (AudioCall.runQOps [] ops).length ≤ AudioCall.queueMaxsize :=
  AudioCall.runQOps_length_le [] ops (by simp)

/-- C10: the silent-discard branch of the enqueue (the
`except asyncio.QueueFull` handler of server.py lines 159-161) is
unreachable: for every queue state, `put_nowait` succeeds, the discard flag
stays `false`, and the new chunk ends up at the back of the queue. -/
theorem c10_discard_unreachable (data : AudioCall.Chunk)
    (q : List AudioCall.Chunk) :
    (AudioCall.enqueueFull data q).2 = false ∧
    (AudioCall.enqueueFull data q).1.getLast? = some data := by
  unfold AudioCall.enqueueFull AudioCall.queueMaxsize
  by_cases h : 2 ≤ q.length
  · simp [h]
  · have h2 : q.length < 3 := by omega
    simp [h, h2, List.getLast?_append]

namespace AudioCall

/-- Helper: `lastActivity` is either the initial value or the time of some
event in the trace. -/
theorem lastActivity_cases (evs : List Ev) (init : ℚ) :
    lastActivity init evs = init ∨
    ∃ e ∈ evs, lastActivity init evs = e.time := by
  induction evs generalizing init with
  | nil => exact Or.inl rfl
  | cons x rest ih =>
      rcases ih x.time with h | ⟨e, he, heq⟩
      · exact Or.inr ⟨x, List.mem_cons_self x rest, h⟩
      · exact Or.inr ⟨e, List.mem_cons_of_mem x he, heq⟩

/-- Helper: in a wall-clock-monotone trace the tail is also monotone. -/
theorem timesMono_tail (x : Ev) (rest : List Ev)
    (h : timesMono (x :: rest) = true) : timesMono rest = true := by
  cases rest with
  | nil => rfl
  | cons y rs =>
      have := h
      unfold timesMono at this
      exact (Bool.and_eq_true _ _ |>.mp this).2

/-- Helper: after a monotone trace starting at `x`, `last_activity` is at
least `x`'s own time. -/
theorem time_le_lastActivity_head (rest : List Ev) (x : Ev)
    (h : timesMono (x :: rest) = true) :
    x.time ≤ lastActivity x.time rest := by
  induction rest generalizing x with
  | nil => exact le_refl _
  | cons y rs ih =>
      have hxy : x.time ≤ y.time := by
        unfold timesMono at h
        exact of_decide_eq_true (Bool.and_eq_true _ _ |>.mp h).1
      have hy : y.time ≤ lastActivity y.time rs := ih y (timesMono_tail x (y :: rs) h)
      calc x.time ≤ y.time := hxy
        _ ≤ lastActivity y.time rs := hy
        _ = lastActivity x.time (y :: rs) := rfl

/-- Helper: in a monotone trace, every event's time is at most the final
`last_activity` value. -/
theorem time_le_lastActivity (evs : List Ev) (init : ℚ) (e : Ev)
    (hmono : timesMono evs = true) (hmem : e ∈ evs) :
    e.time ≤ lastActivity init evs := by
  induction evs generalizing init with
  | nil => cases hmem
  | cons x rest ih =>
      rcases List.mem_cons.mp hmem with rfl | hmem2
      · exact time_le_lastActivity_head rest e hmono
      · exact ih x.time (timesMono_tail x rest hmono) hmem2

end AudioCall

/-- C6 counterexample: the claim says a connection with no successful
outbound send for longer than the 5 s idle limit is timed out regardless of
its inbound traffic.  In the code an inbound receive also refreshes
`last_activity` (server.py line 128): on a trace with no send event at all,
initial activity at time 0 and a single inbound receive at time 4, the
sender-loop check at time 6 — more than 5 s after the last (and only
possible) successful send — does not time the connection out, and the
registry keeps the client. -/
theorem c6_counterexample :
    (∀ e ∈ [AudioCall.Ev.recv 4], e.isSend = false) ∧
    AudioCall.idleLimit < (6 : ℚ) - 0 ∧
    AudioCall.timesOutAt (AudioCall.lastActivity 0 [AudioCall.Ev.recv 4]) 6 = false ∧
    AudioCall.senderTimeoutStep [3] 3
      (AudioCall.lastActivity 0 [AudioCall.Ev.recv 4]) 6 = [3] := by
  have hla : AudioCall.lastActivity 0 [AudioCall.Ev.recv 4] = 4 := rfl
  have hto : AudioCall.timesOutAt
      (AudioCall.lastActivity 0 [AudioCall.Ev.recv 4]) 6 = false := by
    rw [hla]
    unfold AudioCall.timesOutAt
    rw [decide_eq_false_iff_not]
    norm_num [AudioCall.idleLimit]
  refine ⟨?_, ?_, hto, ?_⟩
  · intro e he
    simp only [List.mem_singleton] at he
    subst he
    rfl
  · norm_num [AudioCall.idleLimit]
  · unfold AudioCall.senderTimeoutStep
    rw [hto]
    simp

/-- C6 (amended): a connection whose `last_activity` field has not been
refreshed by either a successful send or an inbound receive for longer than
the 5 s idle limit is timed out at the next sender-loop poll and removed
from the registry.  (Amendment: elapsed time is measured from the last
activity of either kind, not from the last successful send only.) -/
theorem c6_idle_timeout (init t : ℚ) (evs : List AudioCall.Ev)
    (reg : List Nat) (cid : Nat)
    (hinit : AudioCall.idleLimit < t - init)
    (hevs : ∀ e ∈ evs, AudioCall.idleLimit < t - e.time) :
    AudioCall.timesOutAt (AudioCall.lastActivity init evs) t = true ∧
    cid ∉ AudioCall.senderTimeoutStep reg cid
      (AudioCall.lastActivity init evs) t := by
  have hla : AudioCall.idleLimit < t - AudioCall.lastActivity init evs := by
    rcases AudioCall.lastActivity_cases evs init with h | ⟨e, he, heq⟩
    · rw [h]; exact hinit
    · rw [heq]; exact hevs e he
  have hout : AudioCall.timesOutAt (AudioCall.lastActivity init evs) t = true :=
    decide_eq_true hla
  refine ⟨hout, ?_⟩
  unfold AudioCall.senderTimeoutStep
  rw [hout]
  simp

/-- Witness for C6 (amended): a client registered as id 3, initial activity
at time 0, no activity events, polled at time 6 — timed out and removed. -/
theorem c6_idle_timeout_witness :
    AudioCall.idleLimit < (6 : ℚ) - 0 ∧
    (∀ e ∈ ([] : List AudioCall.Ev), AudioCall.idleLimit < 6 - e.time) ∧
    AudioCall.timesOutAt (AudioCall.lastActivity 0 []) 6 = true ∧
    3 ∉ AudioCall.senderTimeoutStep [3] 3 (AudioCall.lastActivity 0 []) 6 := by
  have h1 : AudioCall.idleLimit < (6 : ℚ) - 0 := by norm_num [AudioCall.idleLimit]
  have h2 : ∀ e ∈ ([] : List AudioCall.Ev), AudioCall.idleLimit < 6 - e.time := by
    intro e he; cases he
  have h := c6_idle_timeout 0 6 [] [3] 3 h1 h2
  exact ⟨h1, h2, h.1, h.2⟩

/-- C9: inbound receives refresh the liveness timer — on any wall-clock
monotone trace containing no successful send at all, if some inbound frame
arrived within the idle limit before the sender-loop poll at time `t`, the
poll does not time the connection out. -/
theorem c9_inbound_resets_timer (init t : ℚ) (evs : List AudioCall.Ev)
    (_hsend : ∀ e ∈ evs, e.isSend = false)
    (hmono : AudioCall.timesMono evs = true)
    (hrecent : ∃ e ∈ evs, t - e.time ≤ AudioCall.idleLimit) :
    AudioCall.timesOutAt (AudioCall.lastActivity init evs) t = false := by
  rcases hrecent with ⟨e, he, hle⟩
  have hla : e.time ≤ AudioCall.lastActivity init evs :=
    AudioCall.time_le_lastActivity evs init e hmono he
  have : ¬ AudioCall.idleLimit < t - AudioCall.lastActivity init evs := by
    have : t - AudioCall.lastActivity init evs ≤ t - e.time := by linarith
    linarith
  exact decide_eq_false this

/-- Witness for C9: initial activity at 0, a single inbound receive at
time 4 and no send; the poll at time 6 does not time out. -/
theorem c9_inbound_resets_timer_witness :
    (∀ e ∈ [AudioCall.Ev.recv 4], e.isSend = false) ∧
    AudioCall.timesMono [AudioCall.Ev.recv 4] = true ∧
    (∃ e ∈ [AudioCall.Ev.recv 4], (6 : ℚ) - e.time ≤ AudioCall.idleLimit) ∧
    AudioCall.timesOutAt (AudioCall.lastActivity 0 [AudioCall.Ev.recv 4]) 6 = false := by
  have h1 : ∀ e ∈ [AudioCall.Ev.recv 4], e.isSend = false := by
    intro e he
    simp only [List.mem_singleton] at he
    subst he
    rfl
  have h2 : AudioCall.timesMono [AudioCall.Ev.recv 4] = true := rfl
  have h3 : ∃ e ∈ [AudioCall.Ev.recv 4], (6 : ℚ) - e.time ≤ AudioCall.idleLimit := by
    refine ⟨AudioCall.Ev.recv 4, List.mem_singleton_self _, ?_⟩
    norm_num [AudioCall.Ev.time, AudioCall.idleLimit]
  exact ⟨h1, h2, h3, c9_inbound_resets_timer 0 6 [AudioCall.Ev.recv 4] h1 h2 h3⟩

/-- C7 counterexample: the claim says registering an already-present
connection fails with a `DuplicateConnection` fault.  The code registers
with a plain Python set insertion (`connected_clients.add(client)`,
server.py line 117): on a registry already holding connection 0, the
spec-worded operation fails, but the code's operation succeeds silently and
leaves the registry unchanged. -/
theorem c7_counterexample :
    AudioCall.registerSpec [0] 0 =
      Except.error AudioCall.RegFault.duplicateConnection ∧
    AudioCall.registerConn [0] 0 = [0] := by
  constructor <;> rfl

/-- C7 (amended): registering a connection that is already present in the
registry is a silent idempotent no-op — the registry is returned unchanged
and no fault is raised. -/
theorem c7_duplicate_register_noop (reg : List Nat) (cid : Nat)
    (h : cid ∈ reg) : AudioCall.registerConn reg cid = reg := by
  unfold AudioCall.registerConn
  simp [h]

/-- Witness for C7 (amended): registering connection 0 into a registry that
already holds it returns the registry unchanged. -/
theorem c7_duplicate_register_noop_witness :
    0 ∈ [0] ∧ AudioCall.registerConn [0] 0 = [0] :=
  ⟨List.mem_singleton_self 0, c7_duplicate_register_noop [0] 0 (List.mem_singleton_self 0)⟩

/-- C8 counterexample: the claim says any two distinct persisted segments
receive distinct names.  The naming scheme of `_save_audio_file` uses the
second-resolution `strftime("%Y%m%d_%H%M%S")`: two distinct segments saved
0.6 s apart within the same wall-clock second (at 10.1 s and 10.7 s)
receive exactly the same name. -/
theorem c8_counterexample :
    ([1] : List Nat) ≠ [2] ∧
    AudioCall.saveName 1 (101/10) = AudioCall.saveName 1 (107/10) := by
  constructor
  · decide
  · unfold AudioCall.saveName
    norm_num [Int.floor_eq_iff]

/-- C8 (amended): the naming scheme distinguishes segments only at
whole-second granularity — two saves whose wall-clock instants fall in
distinct whole seconds receive distinct names, while saves within the same
second collide. -/
theorem c8_name_unique_per_second (d : ℚ) (t1 t2 : ℚ)
    (h : ⌊t1⌋ ≠ ⌊t2⌋) :
    AudioCall.saveName d t1 ≠ AudioCall.saveName d t2 := by
  unfold AudioCall.saveName
  intro heq
  exact h (congrArg AudioCall.SaveName.stamp heq)

/-- Witness for C8 (amended): saves at 1 s and 2 s get distinct names. -/
theorem c8_name_unique_per_second_witness :
    ⌊(1 : ℚ)⌋ ≠ ⌊(2 : ℚ)⌋ ∧
    AudioCall.saveName 1 1 ≠ AudioCall.saveName 1 2 := by
  have h : ⌊(1 : ℚ)⌋ ≠ ⌊(2 : ℚ)⌋ := by norm_num
  exact ⟨h, c8_name_unique_per_second 1 1 2 h⟩

namespace AudioCall

/-- Helper: a Python slice pair at any index (also a negative one)
partitions the list. -/
theorem pyTake_append_pyDrop (t : Int) (l : List Nat) :
    pyTake t l ++ pyDrop t l = l := by
  unfold pyTake pyDrop
  by_cases h : 0 ≤ t
  · simp [h]
  · simp [h]

/-- Helper: the lengths of the two slices add up to the original length. -/
theorem pyTake_length_add (t : Int) (l : List Nat) :
    (pyTake t l).length + (pyDrop t l).length = l.length := by
  have h := congrArg List.length (pyTake_append_pyDrop t l)
  simpa [List.length_append] using h

/-- Helper: the emitting branch of `add_chunk`, in closed form. -/
theorem add_chunk_emit (now : ℚ) (d : List Nat) (c : AudioCollector)
    (h : targetSize c.duration_seconds (smoothedRate c now (c.buffer ++ d))
      ≤ ((c.buffer ++ d).length : Int)) :
    add_chunk now d c =
      ({ c with
          buffer := pyDrop
            (targetSize c.duration_seconds (smoothedRate c now (c.buffer ++ d)))
            (c.buffer ++ d)
          last_save_time := now
          bytes_per_second := smoothedRate c now (c.buffer ++ d) },
        some (pyTake
          (targetSize c.duration_seconds (smoothedRate c now (c.buffer ++ d)))
          (c.buffer ++ d))) := by
  unfold add_chunk
  rw [if_pos h]

/-- Helper: the non-emitting branch of `add_chunk`, in closed form. -/
theorem add_chunk_skip (now : ℚ) (d : List Nat) (c : AudioCollector)
    (h : ¬ targetSize c.duration_seconds (smoothedRate c now (c.buffer ++ d))
      ≤ ((c.buffer ++ d).length : Int)) :
    add_chunk now d c =
      ({ c with
          buffer := c.buffer ++ d
          bytes_per_second := smoothedRate c now (c.buffer ++ d) }, none) := by
  unfold add_chunk
  rw [if_neg h]

/-- Helper: one `add_chunk` call conserves bytes — emitted plus retained
equals previously buffered plus appended. -/
theorem add_chunk_conserves (now : ℚ) (d : List Nat) (c : AudioCollector) :
    ((add_chunk now d c).2.elim 0 List.length)
      + (add_chunk now d c).1.buffer.length
      = c.buffer.length + d.length := by
  by_cases h : targetSize c.duration_seconds (smoothedRate c now (c.buffer ++ d))
      ≤ ((c.buffer ++ d).length : Int)
  · rw [add_chunk_emit now d c h]
    have hlen := pyTake_length_add
      (targetSize c.duration_seconds (smoothedRate c now (c.buffer ++ d)))
      (c.buffer ++ d)
    simp only [Option.elim] at hlen ⊢
    simp only [List.length_append] at hlen
    omega
  · rw [add_chunk_skip now d c h]
    simp [List.length_append]

/-- Helper: byte conservation over any run of `add_chunk` calls. -/
theorem runCollector_conserves (inputs : List (ℚ × List Nat))
    (c : AudioCollector) :
    ((runCollector c inputs).2.map List.length).sum
      + (runCollector c inputs).1.buffer.length
      = c.buffer.length + (inputs.map (fun p => p.2.length)).sum := by
  induction inputs generalizing c with
  | nil => simp [runCollector]
  | cons p rest ih =>
      obtain ⟨now, d⟩ := p
      have hstep := add_chunk_conserves now d c
      have hrest := ih (add_chunk now d c).1
      simp only [runCollector, List.map_cons, List.map_append, List.sum_cons,
        List.sum_append]
      cases hseg : (add_chunk now d c).2 with
      | none =>
          rw [hseg] at hstep
          simp only [Option.elim] at hstep
          simp only [Option.toList, List.map_nil, List.sum_nil]
          omega
      | some s =>
          rw [hseg] at hstep
          simp only [Option.elim] at hstep
          simp only [Option.toList, List.map_cons, List.map_nil,
            List.sum_cons, List.sum_nil]
          omega

/-- Helper: the whole-number floor fact used by the fixed-rate scenario. -/
theorem floor_q_1000 : ⌊(1000 : ℚ)⌋ = 1000 := by
  rw [show (1000 : ℚ) = ((1000 : Int) : ℚ) by norm_num, Int.floor_intCast]

/-- Helper: at duration 1 s and rate 1000 bytes/sec the target size is
exactly 1000 bytes. -/
theorem targetSize_one_1000 : targetSize 1 1000 = 1000 := by
  unfold targetSize pyInt
  rw [if_pos (by norm_num), one_mul, floor_q_1000]

/-- Helper: an `add_chunk` call on a collector with duration 1 s, rate
estimate 1000 and no rate adaptation (elapsed time within the 0.1 s
threshold) that leaves the buffer short of 1000 bytes only appends. -/
theorem add_chunk_skip_scenario (now : ℚ) (d : List Nat) (buf : List Nat)
    (lst : ℚ) (hel : ¬ 1/10 < now - lst) (hlen : (buf ++ d).length < 1000) :
    add_chunk now d ⟨1, buf, lst, 1000⟩ = (⟨1, buf ++ d, lst, 1000⟩, none) := by
  have hr : smoothedRate ⟨1, buf, lst, 1000⟩ now (buf ++ d) = 1000 := by
    unfold smoothedRate
    exact if_neg hel
  unfold add_chunk
  rw [if_neg]
  · rw [hr]
  · rw [hr, targetSize_one_1000]
    push_neg
    exact_mod_cast hlen

/-- Helper: an `add_chunk` call on a collector with duration 1 s, rate
estimate 1000 and no rate adaptation that brings the buffer to at least
1000 bytes slices off exactly the first 1000 bytes. -/
theorem add_chunk_emit_scenario (now : ℚ) (d : List Nat) (buf : List Nat)
    (lst : ℚ) (hel : ¬ 1/10 < now - lst) (hlen : 1000 ≤ (buf ++ d).length) :
    add_chunk now d ⟨1, buf, lst, 1000⟩ =
      (⟨1, pyDrop 1000 (buf ++ d), now, 1000⟩, some (pyTake 1000 (buf ++ d))) := by
  have hr : smoothedRate ⟨1, buf, lst, 1000⟩ now (buf ++ d) = 1000 := by
    unfold smoothedRate
    exact if_neg hel
  unfold add_chunk
  rw [if_pos]
  · rw [hr, targetSize_one_1000]
  · rw [hr, targetSize_one_1000]
    exact_mod_cast hlen

end AudioCall

/-- C4: segment byte conservation.  First part: over every run of
`add_chunk` calls, bytes already buffered plus all bytes appended equal the
bytes of all emitted segments plus the bytes retained in the buffer (no
loss, no duplication).  Second part: with the rate estimate held at
1000 bytes/sec (all calls within the 0.1 s adaptation threshold, so the
estimate stays fixed) and duration 1 s, feeding four 300-byte chunks emits
exactly one 1000-byte segment and retains a 200-byte remainder. -/
theorem c4_byte_conservation :
    (∀ (c : AudioCall.AudioCollector) (inputs : List (ℚ × List Nat)),
      ((AudioCall.runCollector c inputs).2.map List.length).sum
        + (AudioCall.runCollector c inputs).1.buffer.length
        = c.buffer.length + (inputs.map (fun p => p.2.length)).sum) ∧
    (∀ (d1 d2 d3 d4 : List Nat), d1.length = 300 → d2.length = 300 →
      d3.length = 300 → d4.length = 300 →
      ((AudioCall.runCollector ⟨1, [], 0, 1000⟩
          [(1/100, d1), (2/100, d2), (3/100, d3), (4/100, d4)]).2.map
        List.length = [1000]) ∧
      (AudioCall.runCollector ⟨1, [], 0, 1000⟩
          [(1/100, d1), (2/100, d2), (3/100, d3), (4/100, d4)]).1.buffer.length
        = 200) := by
  refine ⟨fun c inputs => AudioCall.runCollector_conserves inputs c, ?_⟩
  intro d1 d2 d3 d4 h1 h2 h3 h4
  have e1 : AudioCall.add_chunk (1/100) d1 ⟨1, [], 0, 1000⟩
      = (⟨1, d1, 0, 1000⟩, none) := by
    simpa using AudioCall.add_chunk_skip_scenario (1/100) d1 [] 0 (by norm_num)
      (by simp [h1])
  have e2 : AudioCall.add_chunk (2/100) d2 ⟨1, d1, 0, 1000⟩
      = (⟨1, d1 ++ d2, 0, 1000⟩, none) :=
    AudioCall.add_chunk_skip_scenario (2/100) d2 d1 0 (by norm_num)
      (by simp [h1, h2])
  have e3 : AudioCall.add_chunk (3/100) d3 ⟨1, d1 ++ d2, 0, 1000⟩
      = (⟨1, d1 ++ d2 ++ d3, 0, 1000⟩, none) :=
    AudioCall.add_chunk_skip_scenario (3/100) d3 (d1 ++ d2) 0 (by norm_num)
      (by simp [h1, h2, h3])
  have e4 : AudioCall.add_chunk (4/100) d4 ⟨1, d1 ++ d2 ++ d3, 0, 1000⟩
      = (⟨1, AudioCall.pyDrop 1000 (d1 ++ d2 ++ d3 ++ d4), 4/100, 1000⟩,
          some (AudioCall.pyTake 1000 (d1 ++ d2 ++ d3 ++ d4))) :=
    AudioCall.add_chunk_emit_scenario (4/100) d4 (d1 ++ d2 ++ d3) 0 (by norm_num)
      (by simp [h1, h2, h3, h4])
  have hbig : (d1 ++ d2 ++ d3 ++ d4).length = 1200 := by
    simp [h1, h2, h3, h4]
  have htake : (AudioCall.pyTake 1000 (d1 ++ (d2 ++ (d3 ++ d4)))).length = 1000 := by
    unfold AudioCall.pyTake
    rw [if_pos (by norm_num)]
    rw [List.length_take, show (d1 ++ (d2 ++ (d3 ++ d4))).length = 1200 by
      simp [h1, h2, h3, h4], show Int.toNat 1000 = 1000 from rfl]
    norm_num
  have hdrop : (AudioCall.pyDrop 1000 (d1 ++ d2 ++ d3 ++ d4)).length = 200 := by
    unfold AudioCall.pyDrop
    rw [if_pos (by norm_num)]
    rw [List.length_drop, hbig, show Int.toNat 1000 = 1000 from rfl]
  constructor
  · simp only [AudioCall.runCollector, e1, e2, e3, e4]
    simp [htake]
  · simp only [AudioCall.runCollector, e1, e2, e3, e4]
    exact hdrop

/-- Witness for C4's fixed-rate scenario, at four concrete 300-byte chunks
of zero bytes. -/
theorem c4_byte_conservation_witness :
    (List.replicate 300 (0 : Nat)).length = 300 ∧
    ((AudioCall.runCollector ⟨1, [], 0, 1000⟩
        [(1/100, List.replicate 300 0), (2/100, List.replicate 300 0),
          (3/100, List.replicate 300 0), (4/100, List.replicate 300 0)]).2.map
      List.length = [1000]) ∧
    (AudioCall.runCollector ⟨1, [], 0, 1000⟩
        [(1/100, List.replicate 300 0), (2/100, List.replicate 300 0),
          (3/100, List.replicate 300 0), (4/100, List.replicate 300 0)]).1.buffer.length
      = 200 :=
  ⟨by rw [List.length_replicate],
    (c4_byte_conservation.2 (List.replicate 300 0) (List.replicate 300 0)
      (List.replicate 300 0) (List.replicate 300 0)
      (by rw [List.length_replicate]) (by rw [List.length_replicate])
      (by rw [List.length_replicate]) (by rw [List.length_replicate])).1,
    (c4_byte_conservation.2 (List.replicate 300 0) (List.replicate 300 0)
      (List.replicate 300 0) (List.replicate 300 0)
      (by rw [List.length_replicate]) (by rw [List.length_replicate])
      (by rw [List.length_replicate]) (by rw [List.length_replicate])).2⟩

/-- C5 counterexample: the claim says the segment target size is
`round(durationSeconds * smoothedRate)`.  The code computes
`int(self.duration_seconds * self.bytes_per_second)` (translate.py
line 39), which truncates: at duration 1 s and smoothed rate 1000.5
bytes/sec the code's target is 1000 while rounding to nearest gives 1001. -/
theorem c5_counterexample :
    AudioCall.targetSize 1 (2001/2) = 1000 ∧
    AudioCall.targetSizeSpec 1 (2001/2) = 1001 ∧
    AudioCall.targetSize 1 (2001/2) ≠ AudioCall.targetSizeSpec 1 (2001/2) := by
  have ha : AudioCall.targetSize 1 (2001/2) = 1000 := by
    unfold AudioCall.targetSize AudioCall.pyInt
    rw [if_pos (by norm_num), one_mul, Int.floor_eq_iff]
    constructor <;> norm_num
  have hb : AudioCall.targetSizeSpec 1 (2001/2) = 1001 := by
    unfold AudioCall.targetSizeSpec
    rw [one_mul, round_eq, Int.floor_eq_iff]
    constructor <;> norm_num
  exact ⟨ha, hb, by rw [ha, hb]; decide⟩

/-- C5 (amended): on every `add_chunk` call the segment target size is the
truncation `int(durationSeconds * smoothedRate)`, which for the
nonnegative products arising here is the floor of the product — not the
nearest integer. -/
theorem c5_target_size_floor (d rate : ℚ) (h : 0 ≤ d * rate) :
    AudioCall.targetSize d rate = ⌊d * rate⌋ := by
  unfold AudioCall.targetSize AudioCall.pyInt
  rw [if_pos h]

/-- Witness for C5 (amended): at duration 1 and rate 1000.5 the target is
the floor of the product. -/
theorem c5_target_size_floor_witness :
    (0 : ℚ) ≤ 1 * (2001/2) ∧
    AudioCall.targetSize 1 (2001/2) = ⌊(1 : ℚ) * (2001/2)⌋ :=
  ⟨by norm_num, c5_target_size_floor 1 (2001/2) (by norm_num)⟩
